import Mathlib

/-!
Verification of `microdata_csv_ssb_formatting.py` (CancerRegistryOfNorway/Microdata).

The Python module splits a wide semicolon-separated table into per-variable
record files, downloads per-variable metadata, validates metadata and datasets
through the external `microdata_tools` validator, and packages the validated
datasets.  This file gives a shallow embedding of those functions and proves
the specified properties about them.

Modelling conventions:
* Python `str.lower()` / `str.upper()` / `str.strip()` are modelled by
  `pyLower` / `pyUpper` / `pyStrip` (ASCII case mapping, whitespace trim).
* A pandas `DataFrame` is modelled by its column-name list and a map from a
  column name to the list of that column's values in row order (`DataFrame`).
* File-system effects are modelled by returning the list of performed writes:
  a write is a pair of the file path and the written rows, where a CSV row is
  the list of its fields (the `csv.writer` field separation).
* The HTTP layer (`requests.get` + `raise_for_status`) is an oracle
  `net : String → Option β`: `some body` for a success response, `none` for a
  timeout, transport failure or non-success status (all of which the code
  catches identically, writing nothing).
* The external validator (`validate_metadata` / `validate_dataset`) is an
  oracle from the passed dataset name to its list of error strings, the
  external packager (`package_dataset`) an oracle from the variable name to
  `none` (success) or `some msg` (raised exception with message `msg`).
-/

namespace Microdata

/-- Model of Python `str.lower()` (ASCII letters, as `Char.toLower`). -/
def pyLower (s : String) : String :=
  ⟨s.data.map Char.toLower⟩

/-- Model of Python `str.upper()` (ASCII letters, as `Char.toUpper`). -/
def pyUpper (s : String) : String :=
  ⟨s.data.map Char.toUpper⟩

/-- Strip leading and trailing whitespace from a character list. -/
def stripList (l : List Char) : List Char :=
  ((l.dropWhile Char.isWhitespace).reverse.dropWhile Char.isWhitespace).reverse

/-- Model of Python `str.strip()`. -/
def pyStrip (s : String) : String :=
  ⟨stripList s.data⟩

/-- The reserved identifier/time column names skipped by every stage
(`["sidkrg", "start_time", "stop_time"]` in `save_variable_to_csv`,
`download_metadata` and `main`'s `columns_to_skip`). -/
def reservedNames : List String :=
  ["sidkrg", "start_time", "stop_time"]

/-- Model of the pandas `DataFrame` produced by `read_csv_file`: the list of
column names, the values of each column in row order, and the row count
(`df.shape[0]`). -/
structure DataFrame where
  columns : List String
  col : String → List String
  nrows : Nat

/-- `df[c].values[i]`, the value of column `c` in row `i`. -/
def DataFrame.cell (df : DataFrame) (c : String) (i : Nat) : String :=
  (df.col c).getD i ""

/-- `extract_metadata_filenames`: from the header row of the input CSV, keep
each `filename.strip()` whose `filename.strip().lower()` is not in
`columns_to_skip`, in header order (one name written per output line). -/
def extract_metadata_filenames (first_row : List String) (columns_to_skip : List String) :
    List String :=
  first_row.filterMap fun f =>
    if pyLower (pyStrip f) ∈ columns_to_skip then none else some (pyStrip f)

/-- `read_metadata_filenames`: `[line.strip().upper() for line in lines if line.strip()]`. -/
def read_metadata_filenames (lines : List String) : List String :=
  lines.filterMap fun l =>
    if pyStrip l = "" then none else some (pyUpper (pyStrip l))

/-- The relative path `filename.upper() + ".csv"` inside directory
`filename.upper()` used by `save_variable_to_csv`. -/
def recordPath (w : String) : String :=
  pyUpper w ++ "/" ++ pyUpper w ++ ".csv"

/-- The warning printed by `save_variable_to_csv` for a column missing from
the DataFrame (the Python message wraps the name in single quotes, which we
omit). -/
def columnWarning (w : String) : String :=
  "Warning: Column " ++ w ++ " not found in DataFrame. Skipping."

/-- The rows written for one variable by `save_variable_to_csv`: for each
`i in range(number_of_rows)` the five fields
`[df["sidkrg"].values[i], df[filename].values[i], "",
df["start_time"].values[i], df["stop_time"].values[i]]`. -/
def variableRecords (df : DataFrame) (w : String) (n : Nat) : List (List String) :=
  (List.range n).map fun i =>
    [df.cell "sidkrg" i, df.cell w i, "", df.cell "start_time" i, df.cell "stop_time" i]

/-- Observable outcome of `save_variable_to_csv`: the mutated
`metadata_filenames` list (each entry lowercased in place), the performed
file writes `(path, rows)` keyed by the per-variable relative path, and the
printed missing-column warnings. -/
structure SplitResult where
  names : List String
  writes : List (String × List (List String))
  warnings : List String
deriving DecidableEq

/-- `save_variable_to_csv`: for each entry of `metadata_filenames` (mutated to
its lowercase form in place), skip it with a warning when it is not a column
of `df`; otherwise, unless it is reserved, write the variable's rows to
`NAME_UPPER/NAME_UPPER.csv`. -/
def save_variable_to_csv (df : DataFrame) : List String → Nat → SplitResult
  | [], _ => ⟨[], [], []⟩
  | f :: rest, n =>
    let w := pyLower f
    let r := save_variable_to_csv df rest n
    if w ∈ df.columns then
      if w ∈ reservedNames then ⟨w :: r.names, r.writes, r.warnings⟩
      else ⟨w :: r.names, (recordPath w, variableRecords df w n) :: r.writes, r.warnings⟩
    else ⟨w :: r.names, r.writes, columnWarning w :: r.warnings⟩

/-- `save_variable_to_csv` with an explicit I/O fault model: `fsErr w = true`
means creating/entering the directory of variable `w` or writing its file
raises `OSError`.  The function has no exception handler, so a raised error
propagates: the result is the list of file writes completed before the error,
and a flag telling whether the call aborted with an exception. -/
def save_variable_to_csv_io (fsErr : String → Bool) (df : DataFrame) (n : Nat) :
    List String → List (String × List (List String)) × Bool
  | [] => ([], false)
  | f :: rest =>
    let w := pyLower f
    if w ∈ df.columns then
      if w ∈ reservedNames then save_variable_to_csv_io fsErr df n rest
      else if fsErr w then ([], true)
      else
        let r := save_variable_to_csv_io fsErr df n rest
        ((recordPath w, variableRecords df w n) :: r.1, r.2)
    else save_variable_to_csv_io fsErr df n rest

/-- `save_variable_to_csv` with the process working directory made explicit.
The function creates/enters `directory_name` relative to the *current*
working directory, writes the file there, and only then
`os.chdir(input_directory_path)`; so each written variable's absolute
directory is rooted at whatever the working directory was when its iteration
started.  Returns the writes with absolute paths. -/
def save_variable_to_csv_cwd (df : DataFrame) (input_directory_path : String) (n : Nat) :
    List String → String → List (String × List (List String))
  | [], _ => []
  | f :: rest, cwd =>
    let w := pyLower f
    if w ∈ df.columns then
      if w ∈ reservedNames then save_variable_to_csv_cwd df input_directory_path n rest cwd
      else
        (cwd ++ "/" ++ pyUpper w ++ "/" ++ pyUpper w ++ ".csv", variableRecords df w n)
          :: save_variable_to_csv_cwd df input_directory_path n rest input_directory_path
    else save_variable_to_csv_cwd df input_directory_path n rest cwd

/-- The record-file writes performed by `main`: `main` calls
`prepare_directory(INPUT_DIR)` then `prepare_directory(OUTPUT_DIR)` (each one
`os.chdir`s into its directory) before `save_variable_to_csv`, so the working
directory at the first split iteration is the *output* directory. -/
def mainSplitWrites (df : DataFrame) (fns : List String) (n : Nat)
    (inputDir outputDir : String) : List (String × List (List String)) :=
  save_variable_to_csv_cwd df inputDir n fns outputDir

/-- Observable outcome of `download_metadata`: the issued GET requests as
`(url, timeout-in-seconds)` pairs in order, and the metadata files written,
as `(path, response-body)` pairs. -/
structure FetchResult (β : Type) where
  requests : List (String × Nat)
  writes : List (String × β)
deriving DecidableEq

/-- The absolute metadata path
`os.path.join(input_directory_path, filename.upper(), filename.upper() + ".json")`. -/
def jsonPath (root w : String) : String :=
  root ++ "/" ++ pyUpper w ++ "/" ++ pyUpper w ++ ".json"

/-- `download_metadata`: for each non-reserved entry (lowercased), issue one
GET to `url_without_metadata_parameter + filename` with a 30-second timeout;
on success write the body verbatim to
`<input_directory_path>/<NAME_UPPER>/<NAME_UPPER>.json`; a timeout, transport
failure or non-success status (`raise_for_status`) is caught and the loop
continues with no file written. -/
def download_metadata {β : Type} (net : String → Option β)
    (url_without_metadata_parameter input_directory_path : String) :
    List String → FetchResult β
  | [] => ⟨[], []⟩
  | f :: rest =>
    let w := pyLower f
    let r := download_metadata net url_without_metadata_parameter input_directory_path rest
    if w ∈ reservedNames then r
    else
      match net (url_without_metadata_parameter ++ w) with
      | some body =>
        ⟨(url_without_metadata_parameter ++ w, 30) :: r.requests,
         (jsonPath input_directory_path w, body) :: r.writes⟩
      | none =>
        ⟨(url_without_metadata_parameter ++ w, 30) :: r.requests, r.writes⟩

/-- `validate_downloaded_metadata`: keep the entries for which the external
validator, called on `metadata_filename.upper()`, reports no error. -/
def validate_downloaded_metadata (validator : String → List String)
    (metadata_filenames : List String) : List String :=
  metadata_filenames.filter fun f => (validator (pyUpper f)).isEmpty

/-- `validate_created_dataset`: keep the entries for which the external
validator, called on `metadata_filename.upper()`, reports no error. -/
def validate_created_dataset (validator : String → List String)
    (metadata_filenames : List String) : List String :=
  metadata_filenames.filter fun f => (validator (pyUpper f)).isEmpty

/-- The two validation phases as sequenced by `main`: dataset validation runs
over exactly the output of metadata validation. -/
def validationPipeline (vmeta vdata : String → List String)
    (metadata_filenames : List String) : List String × List String :=
  let valid := validate_downloaded_metadata vmeta metadata_filenames
  (valid, validate_created_dataset vdata valid)

/-- The message printed by `package_and_encrypt_dataset` when the external
packager raises: `f"Error packaging dataset for {metadata_filename}: {e}"`. -/
def packagingErrorMessage (name err : String) : String :=
  "Error packaging dataset for " ++ name ++ ": " ++ err

/-- Observable outcome of `package_and_encrypt_dataset`: the variables for
which `package_dataset` was called (one entry per call, in order), those
reported as successfully packaged, and those reported failed together with
the printed error message. -/
structure PackageResult where
  attempts : List String
  succeeded : List String
  failed : List (String × String)
deriving DecidableEq

/-- `package_and_encrypt_dataset`: for each entry, call the external
`package_dataset` once (`pkg f = none` models success, `pkg f = some e` a
raised exception with message `e`); an exception is caught, reported against
that entry, and the loop continues. -/
def package_and_encrypt_dataset (pkg : String → Option String) :
    List String → PackageResult
  | [] => ⟨[], [], []⟩
  | f :: rest =>
    let r := package_and_encrypt_dataset pkg rest
    match pkg f with
    | none => ⟨f :: r.attempts, f :: r.succeeded, r.failed⟩
    | some e => ⟨f :: r.attempts, r.succeeded, (f, packagingErrorMessage f e) :: r.failed⟩

/-- The variable list handed by `main` to `validate_downloaded_metadata`:
the header names extracted to the metadata file, read back uppercased, then
mutated to lowercase in place by `save_variable_to_csv`. -/
def pipelineValidationInput (header : List String) (df : DataFrame) (n : Nat) : List String :=
  (save_variable_to_csv df
    (read_metadata_filenames (extract_metadata_filenames header reservedNames)) n).names

/-- A concrete wide table with the three reserved columns plus `age` and
`height`, one row. -/
def dfEx : DataFrame where
  columns := ["sidkrg", "start_time", "stop_time", "age", "height"]
  col := fun c =>
    if c = "sidkrg" then ["1"]
    else if c = "start_time" then ["2024-01-01"]
    else if c = "stop_time" then ["2024-01-02"]
    else if c = "age" then ["42"]
    else if c = "height" then ["180"]
    else []
  nrows := 1

/-- A validator oracle reporting one error for every name. -/
def constErrs : String → List String := fun _ => ["bad"]

/-- A validator oracle reporting no errors. -/
def noErrs : String → List String := fun _ => []

/-- A network oracle on which every request fails (timeout, transport error
or non-success status). -/
def netFail : String → Option Nat := fun _ => none

/-- A network oracle on which every request succeeds with body `0`. -/
def netOk : String → Option Nat := fun _ => some 0

/-- A packager oracle raising an exception with message `boom` for every
variable. -/
def pkgBoom : String → Option String := fun _ => some "boom"

/-- A file-system fault oracle raising an `OSError` exactly for variable
`age`. -/
def errOnAge : String → Bool := fun d => d == "age"

/-- A file-system fault oracle raising no error. -/
def noFsErr : String → Bool := fun _ => false

/-- A concrete wide table like `dfEx` but without the `age` column. -/
def dfNoAge : DataFrame where
  columns := ["sidkrg", "start_time", "stop_time", "height"]
  col := fun c =>
    if c = "sidkrg" then ["1"]
    else if c = "start_time" then ["2024-01-01"]
    else if c = "stop_time" then ["2024-01-02"]
    else if c = "height" then ["180"]
    else []
  nrows := 1

end Microdata

namespace Microdata

theorem char_toNat_ofNat_valid {n : Nat} (h : n.isValidChar) : (Char.ofNat n).toNat = n := by
  simp only [Char.ofNat, h, dif_pos, Char.ofNatAux, Char.toNat, UInt32.toNat]
  simp

theorem char_toLower_toUpper (c : Char) : c.toUpper.toLower = c.toLower := by
  unfold Char.toUpper Char.toLower
  by_cases h : c.toNat ≥ 97 ∧ c.toNat ≤ 122
  · have hv : (c.toNat - 32).isValidChar := Or.inl (by omega)
    rw [if_pos h]
    have ht : (Char.ofNat (c.toNat - 32)).toNat = c.toNat - 32 := char_toNat_ofNat_valid hv
    rw [ht, if_pos (by omega), if_neg (by omega)]
    have hc : c.toNat - 32 + 32 = c.toNat := by omega
    rw [hc, Char.ofNat_toNat]
  · rw [if_neg h]

theorem char_toLower_toLower (c : Char) : c.toLower.toLower = c.toLower := by
  unfold Char.toLower
  by_cases h : c.toNat ≥ 65 ∧ c.toNat ≤ 90
  · have hv : (c.toNat + 32).isValidChar := Or.inl (by omega)
    rw [if_pos h]
    have ht : (Char.ofNat (c.toNat + 32)).toNat = c.toNat + 32 := char_toNat_ofNat_valid hv
    rw [ht, if_neg (by omega)]
  · rw [if_neg h, if_neg h]

theorem pyLower_pyUpper (s : String) : pyLower (pyUpper s) = pyLower s := by
  unfold pyLower pyUpper
  apply congrArg String.mk
  rw [List.map_map]
  exact List.map_congr_left fun c _ => char_toLower_toUpper c

theorem pyLower_pyLower (s : String) : pyLower (pyLower s) = pyLower s := by
  unfold pyLower
  apply congrArg String.mk
  rw [List.map_map]
  exact List.map_congr_left fun c _ => char_toLower_toLower c

theorem dropWhile_idem {α} (p : α → Bool) (l : List α) :
    (l.dropWhile p).dropWhile p = l.dropWhile p := by
  induction l with
  | nil => rfl
  | cons a t ih =>
    by_cases h : p a
    · simp [List.dropWhile_cons, h, ih]
    · simp [List.dropWhile_cons, h]

theorem dropWhile_eq_self_of_isPrefixOf {α} (p : α → Bool) {l₁ l : List α}
    (hp : l₁ <+: l) (hl : l.dropWhile p = l) : l₁.dropWhile p = l₁ := by
  cases l₁ with
  | nil => rfl
  | cons a t =>
    obtain ⟨r, hr⟩ := hp
    subst hr
    rw [List.cons_append] at hl
    rw [List.dropWhile_cons] at hl ⊢
    by_cases h : p a
    · exfalso
      rw [if_pos h] at hl
      have hs := (List.dropWhile_suffix (l := t ++ r) p).length_le
      have hc := congrArg List.length hl
      simp only [List.length_cons, List.length_append] at hs hc
      omega
    · rw [if_neg h]

theorem stripList_idem (l : List Char) : stripList (stripList l) = stripList l := by
  unfold stripList
  set p := Char.isWhitespace with hp
  set A := l.dropWhile p with hA
  set B := A.reverse.dropWhile p with hB
  have h1 : A.dropWhile p = A := by rw [hA]; exact dropWhile_idem p l
  have h2 : B.reverse <+: A := by
    rw [← List.reverse_suffix, List.reverse_reverse]
    exact List.dropWhile_suffix p
  have h3 : B.reverse.dropWhile p = B.reverse := dropWhile_eq_self_of_isPrefixOf p h2 h1
  have h4 : B.dropWhile p = B := by rw [hB]; exact dropWhile_idem p A.reverse
  rw [h3, List.reverse_reverse, h4]

theorem pyStrip_idem (s : String) : pyStrip (pyStrip s) = pyStrip s := by
  unfold pyStrip
  exact congrArg String.mk (stripList_idem s.data)

theorem save_names (df : DataFrame) (n : Nat) (fns : List String) :
    (save_variable_to_csv df fns n).names = fns.map pyLower := by
  induction fns with
  | nil => rfl
  | cons f rest ih =>
    simp only [save_variable_to_csv]
    by_cases h1 : pyLower f ∈ df.columns
    · by_cases h2 : pyLower f ∈ reservedNames
      · simp [h1, h2, ih]
      · simp [h1, h2, ih]
    · simp [h1, ih]

theorem save_writes_mem (df : DataFrame) (n : Nat) (fns : List String) (v : String)
    (hv : v ∈ fns) (hc : pyLower v ∈ df.columns) (hr : pyLower v ∉ reservedNames) :
    (recordPath (pyLower v), variableRecords df (pyLower v) n) ∈
      (save_variable_to_csv df fns n).writes := by
  induction fns with
  | nil => cases hv
  | cons f rest ih =>
    simp only [save_variable_to_csv]
    rcases List.mem_cons.mp hv with rfl | hm
    · simp [hc, hr]
    · by_cases h1 : pyLower f ∈ df.columns
      · by_cases h2 : pyLower f ∈ reservedNames
        · simp only [h1, h2, if_true, if_pos]
          exact ih hm
        · simp only [h1, h2, if_pos, if_neg, if_true]
          exact List.mem_cons_of_mem _ (ih hm)
      · simp only [h1, if_neg]
        exact ih hm

theorem save_warning_mem (df : DataFrame) (n : Nat) (fns : List String) (v : String)
    (hv : v ∈ fns) (hc : pyLower v ∉ df.columns) :
    columnWarning (pyLower v) ∈ (save_variable_to_csv df fns n).warnings := by
  induction fns with
  | nil => cases hv
  | cons f rest ih =>
    simp only [save_variable_to_csv]
    rcases List.mem_cons.mp hv with rfl | hm
    · simp [hc]
    · by_cases h1 : pyLower f ∈ df.columns
      · by_cases h2 : pyLower f ∈ reservedNames
        · simp only [h1, h2, if_true, if_pos]
          exact ih hm
        · simp only [h1, h2, if_pos, if_neg, if_true]
          exact ih hm
      · simp only [h1, if_neg]
        exact List.mem_cons_of_mem _ (ih hm)

theorem save_writes_filter_columns (df : DataFrame) (n : Nat) (fns : List String) :
    (save_variable_to_csv df fns n).writes =
      (save_variable_to_csv df (fns.filter fun f => decide (pyLower f ∈ df.columns)) n).writes := by
  induction fns with
  | nil => rfl
  | cons f rest ih =>
    by_cases h1 : pyLower f ∈ df.columns
    · by_cases h2 : pyLower f ∈ reservedNames
      · simp only [List.filter_cons, h1]
        simp only [save_variable_to_csv]
        simp [h1, h2, ih]
      · simp only [List.filter_cons, h1]
        simp only [save_variable_to_csv]
        simp [h1, h2, ih]
    · simp only [List.filter_cons, h1]
      simp only [save_variable_to_csv]
      simp [h1, ih]

theorem save_writes_reserved_cons (df : DataFrame) (n : Nat) (fns : List String) (f : String)
    (hr : pyLower f ∈ reservedNames) :
    (save_variable_to_csv df (f :: fns) n).writes = (save_variable_to_csv df fns n).writes := by
  by_cases h1 : pyLower f ∈ df.columns
  · simp [save_variable_to_csv, h1, hr]
  · simp [save_variable_to_csv, h1]

theorem download_requests_eq {β : Type} (net : String → Option β) (base root : String)
    (fns : List String) :
    (download_metadata net base root fns).requests =
      fns.filterMap fun f =>
        if pyLower f ∈ reservedNames then none else some (base ++ pyLower f, 30) := by
  induction fns with
  | nil => rfl
  | cons f rest ih =>
    simp only [download_metadata, List.filterMap_cons]
    by_cases h : pyLower f ∈ reservedNames
    · simp [h, ih]
    · cases hnet : net (base ++ pyLower f) with
      | some b => simp [h, hnet, ih]
      | none => simp [h, hnet, ih]

theorem download_writes_eq {β : Type} (net : String → Option β) (base root : String)
    (fns : List String) :
    (download_metadata net base root fns).writes =
      fns.filterMap fun f =>
        if pyLower f ∈ reservedNames then none
        else (net (base ++ pyLower f)).map fun b => (jsonPath root (pyLower f), b) := by
  induction fns with
  | nil => rfl
  | cons f rest ih =>
    simp only [download_metadata, List.filterMap_cons]
    by_cases h : pyLower f ∈ reservedNames
    · simp [h, ih]
    · cases hnet : net (base ++ pyLower f) with
      | some b => simp [h, hnet, ih]
      | none => simp [h, hnet, ih]

theorem download_append {β : Type} (net : String → Option β) (base root : String)
    (fns gns : List String) :
    download_metadata net base root (fns ++ gns) =
      ⟨(download_metadata net base root fns).requests
        ++ (download_metadata net base root gns).requests,
       (download_metadata net base root fns).writes
        ++ (download_metadata net base root gns).writes⟩ := by
  have h1 : (download_metadata net base root (fns ++ gns)).requests =
      (download_metadata net base root fns).requests
        ++ (download_metadata net base root gns).requests := by
    rw [download_requests_eq net base root (fns ++ gns), List.filterMap_append,
      download_requests_eq net base root fns, download_requests_eq net base root gns]
  have h2 : (download_metadata net base root (fns ++ gns)).writes =
      (download_metadata net base root fns).writes
        ++ (download_metadata net base root gns).writes := by
    rw [download_writes_eq net base root (fns ++ gns), List.filterMap_append,
      download_writes_eq net base root fns, download_writes_eq net base root gns]
  have heta : download_metadata net base root (fns ++ gns) =
      ⟨(download_metadata net base root (fns ++ gns)).requests,
       (download_metadata net base root (fns ++ gns)).writes⟩ := rfl
  rw [heta, h1, h2]

theorem download_request_mem {β : Type} (net : String → Option β) (base root : String)
    (fns : List String) (f : String) (hf : f ∈ fns) (hr : pyLower f ∉ reservedNames) :
    (base ++ pyLower f, 30) ∈ (download_metadata net base root fns).requests := by
  rw [download_requests_eq]
  rw [List.mem_filterMap]
  exact ⟨f, hf, by simp [hr]⟩

theorem extract_mem (H R : List String) (x : String)
    (hx : x ∈ extract_metadata_filenames H R) :
    pyLower x ∉ R ∧ pyStrip x = x := by
  unfold extract_metadata_filenames at hx
  rw [List.mem_filterMap] at hx
  obtain ⟨f, _, hout⟩ := hx
  by_cases h : pyLower (pyStrip f) ∈ R
  · simp [h] at hout
  · simp only [h, if_neg, if_false, Option.some.injEq] at hout
    subst hout
    exact ⟨h, pyStrip_idem f⟩

theorem read_mem (L : List String) (y : String) (hy : y ∈ read_metadata_filenames L) :
    ∃ x ∈ L, y = pyUpper (pyStrip x) := by
  unfold read_metadata_filenames at hy
  rw [List.mem_filterMap] at hy
  obtain ⟨x, hx, hout⟩ := hy
  by_cases h : pyStrip x = ""
  · simp [h] at hout
  · simp only [h, if_neg, if_false, Option.some.injEq] at hout
    exact ⟨x, hx, hout.symm⟩

theorem validate_mem (validator : String → List String) (fns : List String) (v : String)
    (hv : v ∈ validate_downloaded_metadata validator fns) :
    v ∈ fns ∧ validator (pyUpper v) = [] := by
  unfold validate_downloaded_metadata at hv
  rw [List.mem_filter] at hv
  exact ⟨hv.1, List.isEmpty_iff.mp hv.2⟩

theorem validate_dataset_mem (validator : String → List String) (fns : List String) (v : String)
    (hv : v ∈ validate_created_dataset validator fns) : v ∈ fns := by
  unfold validate_created_dataset at hv
  exact (List.mem_filter.mp hv).1

theorem validate_not_mem (validator : String → List String) (fns : List String) (v : String)
    (he : validator (pyUpper v) ≠ []) :
    v ∉ validate_downloaded_metadata validator fns := by
  intro h
  exact he (validate_mem validator fns v h).2

theorem package_attempts_eq (pkg : String → Option String) (fns : List String) :
    (package_and_encrypt_dataset pkg fns).attempts = fns := by
  induction fns with
  | nil => rfl
  | cons f rest ih =>
    simp only [package_and_encrypt_dataset]
    cases hp : pkg f with
    | none => simp [ih]
    | some e => simp [ih]

theorem package_succeeded_mem (pkg : String → Option String) (fns : List String) (v : String)
    (hv : v ∈ (package_and_encrypt_dataset pkg fns).succeeded) : pkg v = none := by
  induction fns with
  | nil => cases hv
  | cons f rest ih =>
    simp only [package_and_encrypt_dataset] at hv
    cases hp : pkg f with
    | none =>
      rw [hp] at hv
      simp only at hv
      rcases List.mem_cons.mp hv with rfl | hm
      · exact hp
      · exact ih hm
    | some e =>
      rw [hp] at hv
      simp only at hv
      exact ih hv

theorem package_failed_mem (pkg : String → Option String) (fns : List String) (v e : String)
    (hv : v ∈ fns) (he : pkg v = some e) :
    (v, packagingErrorMessage v e) ∈ (package_and_encrypt_dataset pkg fns).failed := by
  induction fns with
  | nil => cases hv
  | cons f rest ih =>
    simp only [package_and_encrypt_dataset]
    rcases List.mem_cons.mp hv with rfl | hm
    · rw [he]
      simp
    · cases hp : pkg f with
      | none =>
        simp only
        exact ih hm
      | some e2 =>
        simp only
        exact List.mem_cons_of_mem _ (ih hm)

theorem packagingErrorMessage_ne_empty (v e : String) : packagingErrorMessage v e ≠ "" := by
  intro h
  have h2 := congrArg String.length h
  simp only [packagingErrorMessage, String.length_append] at h2
  have h3 : ("Error packaging dataset for " : String).length = 28 := rfl
  have h4 : ("" : String).length = 0 := rfl
  rw [h3, h4] at h2
  omega

theorem variableRecords_length (df : DataFrame) (w : String) (n : Nat) :
    (variableRecords df w n).length = n := by
  simp [variableRecords]

theorem variableRecords_getD (df : DataFrame) (w : String) (n i : Nat) (h : i < n) :
    (variableRecords df w n).getD i [] =
      [df.cell "sidkrg" i, df.cell w i, "", df.cell "start_time" i, df.cell "stop_time" i] := by
  unfold variableRecords
  rw [List.getD_eq_getElem?_getD, List.getElem?_map, List.getElem?_range h]
  rfl

theorem save_io_abort_flag (fsErr : String → Bool) (df : DataFrame) (n : Nat)
    (l : List String) (pre : List String)
    (hl : (save_variable_to_csv_io fsErr df n l).2 = true) :
    (save_variable_to_csv_io fsErr df n (pre ++ l)).2 = true := by
  induction pre with
  | nil => exact hl
  | cons p rest ih =>
    simp only [List.cons_append, save_variable_to_csv_io]
    by_cases h1 : pyLower p ∈ df.columns
    · by_cases h2 : pyLower p ∈ reservedNames
      · simp only [h1, h2, if_pos]
        exact ih
      · by_cases h3 : fsErr (pyLower p)
        · simp [h1, h2, h3]
        · simp only [h1, h2, h3, if_pos, if_neg]
          simpa using ih
    · simp only [h1, if_neg]
      exact ih

theorem pipelineValidationInput_not_reserved (header : List String) (df : DataFrame) (n : Nat)
    (v : String) (hv : v ∈ pipelineValidationInput header df n) : v ∉ reservedNames := by
  unfold pipelineValidationInput at hv
  rw [save_names, List.mem_map] at hv
  obtain ⟨y, hy, hvy⟩ := hv
  obtain ⟨x, hx, hyx⟩ := read_mem _ y hy
  have hmem := extract_mem header reservedNames x hx
  subst hvy
  subst hyx
  rw [pyLower_pyUpper, hmem.2]
  exact hmem.1

/-- C1: For every wide table and every declared variable whose lowercase form
is a non-reserved column of the table, the split stage writes that variable's
record file with exactly `df.nrows` rows, in row order, each row having
exactly 5 fields whose first field is the `sidkrg` value of the corresponding
row, whose second field is the variable's own value in that row, and whose
third field is the empty string. -/
theorem split_record_file_content (df : DataFrame) (fns : List String) (v : String)
    (hv : v ∈ fns) (hc : pyLower v ∈ df.columns) (hr : pyLower v ∉ reservedNames) :
    (recordPath (pyLower v), variableRecords df (pyLower v) df.nrows) ∈
      (save_variable_to_csv df fns df.nrows).writes ∧
    (variableRecords df (pyLower v) df.nrows).length = df.nrows ∧
    ∀ i, i < df.nrows →
      ((variableRecords df (pyLower v) df.nrows).getD i []).length = 5 ∧
      ((variableRecords df (pyLower v) df.nrows).getD i []).getD 0 "" = df.cell "sidkrg" i ∧
      ((variableRecords df (pyLower v) df.nrows).getD i []).getD 1 "" = df.cell (pyLower v) i ∧
      ((variableRecords df (pyLower v) df.nrows).getD i []).getD 2 "" = "" := by
  refine ⟨save_writes_mem df df.nrows fns v hv hc hr, variableRecords_length df _ _, ?_⟩
  intro i hi
  rw [variableRecords_getD df _ _ i hi]
  exact ⟨rfl, rfl, rfl, rfl⟩

/-- Witness for C1 at the concrete table `dfEx` and declared list `["AGE"]`. -/
theorem split_record_file_content_witness :
    (recordPath (pyLower "AGE"), variableRecords dfEx (pyLower "AGE") dfEx.nrows) ∈
      (save_variable_to_csv dfEx ["AGE"] dfEx.nrows).writes ∧
    ((variableRecords dfEx (pyLower "AGE") dfEx.nrows).getD 0 []).length = 5 :=
  ⟨(split_record_file_content dfEx ["AGE"] "AGE" (by decide) (by decide) (by decide)).1,
   ((split_record_file_content dfEx ["AGE"] "AGE" (by decide) (by decide)
      (by decide)).2.2 0 (by decide)).1⟩

/-- C2 counterexample: catalog extraction does not lowercase the emitted
names.  On header `["AGE"]` with empty reserved set the code emits `["AGE"]`
while the claim demands canonical lowercase `["age"]`. -/
theorem extract_not_lowercased_cex :
    extract_metadata_filenames ["AGE"] [] = ["AGE"] ∧
    pyLower "AGE" = "age" ∧ ("AGE" : String) ≠ "age" := by
  refine ⟨?_, ?_, ?_⟩ <;> decide

/-- C2 (amended): catalog extraction returns exactly those names of the
header whose stripped lowercase form is not reserved, in header order,
retaining duplicates, emitted as the *stripped names in their original case*
(the lowercasing happens only at comparison time). -/
theorem extract_keeps_original_case (H R : List String) :
    extract_metadata_filenames H R =
      (H.map pyStrip).filter (fun x => decide (pyLower x ∉ R)) ∧
    ∀ x ∈ extract_metadata_filenames H R, pyLower x ∉ R := by
  constructor
  · induction H with
    | nil => rfl
    | cons f t ih =>
      by_cases h : pyLower (pyStrip f) ∈ R
      · simp [extract_metadata_filenames, List.filterMap_cons, List.filter_cons, h] at ih ⊢
        exact ih
      · simp [extract_metadata_filenames, List.filterMap_cons, List.filter_cons, h] at ih ⊢
        exact ih
  · intro x hx
    exact (extract_mem H R x hx).1

/-- Witness for C2 (amended) at the concrete header `["  Age", "SIDKRG"]`
with the reserved set of `main`. -/
theorem extract_keeps_original_case_witness :
    extract_metadata_filenames ["  Age", "SIDKRG"] reservedNames = ["Age"] ∧
    pyLower "Age" ∉ reservedNames := by
  constructor
  · rw [(extract_keeps_original_case ["  Age", "SIDKRG"] reservedNames).1]
    decide
  · exact (extract_keeps_original_case ["  Age", "SIDKRG"] reservedNames).2 "Age" (by decide)

/-- C3: a variable for which metadata validation reports a non-empty error
list is excluded from the valid set; dataset validation (as sequenced by
`main`) runs exactly over the metadata-valid set, all of whose members have
an empty metadata error list. -/
theorem dataset_validation_only_after_metadata (vmeta vdata : String → List String)
    (fns : List String) (v : String) (_hv : v ∈ fns) (he : vmeta (pyUpper v) ≠ []) :
    v ∉ validate_downloaded_metadata vmeta fns ∧
    (validationPipeline vmeta vdata fns).2 =
      validate_created_dataset vdata (validate_downloaded_metadata vmeta fns) ∧
    ∀ w ∈ validate_downloaded_metadata vmeta fns, vmeta (pyUpper w) = [] := by
  refine ⟨validate_not_mem vmeta fns v he, rfl, ?_⟩
  intro w hw
  exact (validate_mem vmeta fns w hw).2

/-- Witness for C3 with the always-failing metadata validator on `["age"]`. -/
theorem dataset_validation_only_after_metadata_witness :
    "age" ∉ validate_downloaded_metadata constErrs ["age"] ∧
    (validationPipeline constErrs noErrs ["age"]).2 =
      validate_created_dataset noErrs (validate_downloaded_metadata constErrs ["age"]) ∧
    ∀ w ∈ validate_downloaded_metadata constErrs ["age"], constErrs (pyUpper w) = [] :=
  dataset_validation_only_after_metadata constErrs noErrs ["age"] "age"
    (by decide) (by decide)

/-- C4: the metadata fetch issues exactly one GET request per non-reserved
declared entry, each with the fixed 30-second timeout and in list order (no
retries); the loop over a concatenation is the concatenation of the loops
(one entry's failure never stops the rest); and a metadata file is written
exactly for the entries whose single request succeeds — a failed request
writes nothing. -/
theorem download_one_get_per_variable {β : Type} (net : String → Option β)
    (base root : String) (fns gns : List String) :
    (download_metadata net base root fns).requests =
      (fns.filterMap fun f =>
        if pyLower f ∈ reservedNames then none else some (base ++ pyLower f, 30)) ∧
    (download_metadata net base root fns).writes =
      (fns.filterMap fun f =>
        if pyLower f ∈ reservedNames then none
        else (net (base ++ pyLower f)).map fun b => (jsonPath root (pyLower f), b)) ∧
    download_metadata net base root (fns ++ gns) =
      ⟨(download_metadata net base root fns).requests
        ++ (download_metadata net base root gns).requests,
       (download_metadata net base root fns).writes
        ++ (download_metadata net base root gns).writes⟩ :=
  ⟨download_requests_eq net base root fns, download_writes_eq net base root fns,
   download_append net base root fns gns⟩

/-- C5: packaging calls the external packager exactly once per entry, in
order; an entry on which the packager raises is recorded in the failed set
with a non-empty message and never appears in the succeeded set, and the
remaining entries are still attempted. -/
theorem package_failure_isolated (pkg : String → Option String) (fns : List String)
    (v e : String) (hv : v ∈ fns) (he : pkg v = some e) :
    (package_and_encrypt_dataset pkg fns).attempts = fns ∧
    (v, packagingErrorMessage v e) ∈ (package_and_encrypt_dataset pkg fns).failed ∧
    packagingErrorMessage v e ≠ "" ∧
    v ∉ (package_and_encrypt_dataset pkg fns).succeeded := by
  refine ⟨package_attempts_eq pkg fns, package_failed_mem pkg fns v e hv he,
    packagingErrorMessage_ne_empty v e, ?_⟩
  intro hmem
  have hnone := package_succeeded_mem pkg fns v hmem
  rw [he] at hnone
  cases hnone

/-- Witness for C5 with the always-raising packager on `["age"]`. -/
theorem package_failure_isolated_witness :
    (package_and_encrypt_dataset pkgBoom ["age"]).attempts = ["age"] ∧
    ("age", packagingErrorMessage "age" "boom") ∈
      (package_and_encrypt_dataset pkgBoom ["age"]).failed ∧
    packagingErrorMessage "age" "boom" ≠ "" ∧
    "age" ∉ (package_and_encrypt_dataset pkgBoom ["age"]).succeeded :=
  package_failure_isolated pkgBoom ["age"] "age" "boom" (by decide) (by decide)

/-- C6 counterexample: an I/O error while splitting `age` leaves `height`
unsplit even though `height`'s own I/O is error-free (with no error both
variables are split), refuting the claim that such an error is fatal only
for the single variable being processed. -/
theorem split_io_error_aborts_cex :
    save_variable_to_csv_io errOnAge dfEx 1 ["age", "height"] = ([], true) ∧
    (save_variable_to_csv_io noFsErr dfEx 1 ["age", "height"]).1.length = 2 := by
  refine ⟨?_, ?_⟩ <;> decide

/-- C6 (amended): the split stage has no exception handler, so an I/O error
while creating a directory or writing a file for one variable aborts the
entire split: the failing variable's file and every later variable's file
are not written, and the abort propagates out of any earlier prefix of the
loop (only files completed before the error remain). -/
theorem split_io_error_aborts (fsErr : String → Bool) (df : DataFrame) (n : Nat)
    (f : String) (rest pre : List String)
    (hc : pyLower f ∈ df.columns) (hr : pyLower f ∉ reservedNames)
    (he : fsErr (pyLower f) = true) :
    save_variable_to_csv_io fsErr df n (f :: rest) = ([], true) ∧
    (save_variable_to_csv_io fsErr df n (pre ++ f :: rest)).2 = true := by
  have h1 : save_variable_to_csv_io fsErr df n (f :: rest) = ([], true) := by
    simp [save_variable_to_csv_io, hc, hr, he]
  exact ⟨h1, save_io_abort_flag fsErr df n (f :: rest) pre (by rw [h1])⟩

/-- Witness for C6 (amended) with an I/O error on `age` followed by
`height`, behind the already-processed prefix `["height"]`. -/
theorem split_io_error_aborts_witness :
    save_variable_to_csv_io errOnAge dfEx 1 ("age" :: ["height"]) = ([], true) ∧
    (save_variable_to_csv_io errOnAge dfEx 1 (["height"] ++ "age" :: ["height"])).2 = true :=
  split_io_error_aborts errOnAge dfEx 1 "age" ["height"] ["height"]
    (by decide) (by decide) (by decide)

/-- C7 counterexample: a declared variable absent from the table's columns
is skipped by the split with a warning, but it still progresses to the fetch
stage: `main` hands the same mutated list to `download_metadata`, which
issues a GET request for `age` although `age` is not a column, and `age`
also stays in the list consumed by the validation stage. -/
theorem absent_variable_still_fetched_cex :
    pyLower "age" ∉ dfNoAge.columns ∧
    (save_variable_to_csv dfNoAge ["AGE", "HEIGHT"] 1).warnings = [columnWarning "age"] ∧
    (save_variable_to_csv dfNoAge ["AGE", "HEIGHT"] 1).names = ["age", "height"] ∧
    ((download_metadata netFail "http://x/" "/in"
        (save_variable_to_csv dfNoAge ["AGE", "HEIGHT"] 1).names).requests.map Prod.fst)
      = ["http://x/age", "http://x/height"] := by
  refine ⟨?_, ?_, ?_, ?_⟩ <;> decide

/-- C7 (amended): a declared variable absent from the table's columns
produces a warning and no record file, and removing all such variables
leaves the other variables' writes unchanged; but the variable is not
dropped from the pipeline: it stays in the mutated name list and, unless
reserved, the fetch stage still issues a GET request for it. -/
theorem absent_variable_split_behavior {β : Type} (net : String → Option β)
    (df : DataFrame) (fns : List String) (n : Nat) (base root v : String)
    (hv : v ∈ fns) (hc : pyLower v ∉ df.columns) :
    columnWarning (pyLower v) ∈ (save_variable_to_csv df fns n).warnings ∧
    (save_variable_to_csv df fns n).writes =
      (save_variable_to_csv df (fns.filter fun f => decide (pyLower f ∈ df.columns)) n).writes ∧
    pyLower v ∈ (save_variable_to_csv df fns n).names ∧
    (pyLower v ∉ reservedNames →
      (base ++ pyLower v, 30) ∈
        (download_metadata net base root (save_variable_to_csv df fns n).names).requests) := by
  refine ⟨save_warning_mem df n fns v hv hc, save_writes_filter_columns df n fns, ?_, ?_⟩
  · rw [save_names]
    exact List.mem_map.mpr ⟨v, hv, rfl⟩
  · intro hres
    have hmem : pyLower v ∈ (save_variable_to_csv df fns n).names := by
      rw [save_names]
      exact List.mem_map.mpr ⟨v, hv, rfl⟩
    have h := download_request_mem net base root (save_variable_to_csv df fns n).names
      (pyLower v) hmem (by rw [pyLower_pyLower]; exact hres)
    rw [pyLower_pyLower] at h
    exact h

/-- Witness for C7 (amended) at the concrete table without an `age` column. -/
theorem absent_variable_split_behavior_witness :
    columnWarning (pyLower "AGE") ∈ (save_variable_to_csv dfNoAge ["AGE"] 1).warnings ∧
    ("http://x/" ++ pyLower "AGE", 30) ∈
      (download_metadata netFail "http://x/" "/in"
        (save_variable_to_csv dfNoAge ["AGE"] 1).names).requests :=
  ⟨(absent_variable_split_behavior netFail dfNoAge ["AGE"] 1 "http://x/" "/in" "AGE"
      (by decide) (by decide)).1,
   (absent_variable_split_behavior netFail dfNoAge ["AGE"] 1 "http://x/" "/in" "AGE"
      (by decide) (by decide)).2.2.2 (by decide)⟩

/-- C8: evaluation at the failing input.  With distinct input and output
roots, `main` prepares the input then the output directory (each call
`os.chdir`s), so the working directory is the *output* root when the split
begins; the first non-reserved variable's record file is therefore created
under the output root instead of `<root>/<VARIABLE_UPPER>/...` — where the
fetched `.json` is placed and where the validation stage looks — while every
later variable is rooted at the input root as claimed. -/
theorem first_record_file_written_under_output_root :
    (mainSplitWrites dfEx ["AGE", "HEIGHT"] 1 "/in" "/out").map Prod.fst
      = ["/out/AGE/AGE.csv", "/in/HEIGHT/HEIGHT.csv"] ∧
    "/in/AGE/AGE.csv" ∉ (mainSplitWrites dfEx ["AGE", "HEIGHT"] 1 "/in" "/out").map Prod.fst ∧
    (download_metadata netOk "http://x/" "/in" ["age"]).writes.map Prod.fst
      = ["/in/AGE/AGE.json"] := by
  refine ⟨?_, ?_, ?_⟩ <;> decide

/-- C9: reserved variables never pass the catalog stage: extraction never
emits a name whose lowercase form is reserved; a reserved entry contributes
no record-file write and no GET request; and the name list reaching the
validation stage through `main` (extracted, read back uppercased, lowercased
in place by the split) contains no reserved name — hence neither does the
subset reaching dataset validation and packaging. -/
theorem reserved_never_past_catalog {β : Type} (net : String → Option β)
    (base root : String) (header fns : List String) (df : DataFrame) (n : Nat)
    (vmeta vdata : String → List String) :
    (∀ x ∈ extract_metadata_filenames header reservedNames, pyLower x ∉ reservedNames) ∧
    (∀ f, pyLower f ∈ reservedNames →
      (save_variable_to_csv df (f :: fns) n).writes = (save_variable_to_csv df fns n).writes ∧
      download_metadata net base root (f :: fns) = download_metadata net base root fns) ∧
    (∀ v ∈ pipelineValidationInput header df n, v ∉ reservedNames) ∧
    (∀ v ∈ validate_created_dataset vdata
        (validate_downloaded_metadata vmeta (pipelineValidationInput header df n)),
      v ∉ reservedNames) := by
  refine ⟨?_, ?_, ?_, ?_⟩
  · intro x hx
    exact (extract_mem header reservedNames x hx).1
  · intro f hf
    refine ⟨save_writes_reserved_cons df n fns f hf, ?_⟩
    simp [download_metadata, hf]
  · intro v hv
    exact pipelineValidationInput_not_reserved header df n v hv
  · intro v hv
    have h1 := validate_dataset_mem vdata _ v hv
    have h2 := (validate_mem vmeta _ v h1).1
    exact pipelineValidationInput_not_reserved header df n v h2

/-- Witness for C9 on a concrete header carrying all three reserved columns
and one payload variable. -/
theorem reserved_never_past_catalog_witness :
    pipelineValidationInput ["sidkrg", "start_time", "stop_time", " Age "] dfEx 1 = ["age"] ∧
    "age" ∉ reservedNames := by
  constructor
  · decide
  · exact (reserved_never_past_catalog netFail "http://x/" "/in"
      ["sidkrg", "start_time", "stop_time", " Age "] [] dfEx 1 noErrs noErrs).2.2.1
      "age" (by decide)

/-- C10: `save_variable_to_csv` mutates its `metadata_filenames` argument in
place: after the call every entry of the list has been replaced by its
lowercase form, so all later stages observe lowercase names regardless of
the case in which the list was supplied. -/
theorem split_mutates_filenames_lowercase (df : DataFrame) (fns : List String) (n : Nat) :
    (save_variable_to_csv df fns n).names = fns.map pyLower :=
  save_names df n fns

end Microdata
